import Mathlib

/-!
Verification of the progress-tracking core of the multi-agent research
assistant frontend, shallowly embedded from
`src/src/hooks/useRealtimeProgress.ts`.

Timestamps: in the source a record's `updated_at` is a `string | null`
database column holding an ISO-8601 timestamp.  The code compares rows via
`new Date(item.updated_at || '')`.  We model a non-null, parseable
timestamp string as `some t` with `t : Nat` its JavaScript time value, and
a null/missing timestamp as `none`: `null || ''` is `''` and
`new Date('')` is an Invalid Date whose numeric value is NaN, so every
`>` comparison involving it is false.  This is captured by `jsDateGt`.
-/

namespace RealtimeProgress

/-- Raw shape of a row of the `agent_progress` table, after
`interface DatabaseAgentProgress` in `useRealtimeProgress.ts`. -/
structure DatabaseAgentProgress where
  id : String
  query_id : Option String
  agent_name : String
  status : Option String
  progress : Option Int
  current_task : Option String
  created_at : Option Nat
  updated_at : Option Nat
deriving DecidableEq, Repr

/-- The JavaScript comparison `new Date(a || '') > new Date(b || '')` on the
modelled timestamps: both sides must be valid dates (`some`), and then the
numeric time values are compared strictly.  A `none` on either side makes
the comparison false (NaN semantics). -/
def jsDateGt : Option Nat → Option Nat → Bool
  | some a, some b => decide (b < a)
  | _, _ => false

/-- Numeric time value of a record's `updated_at`, defaulting to 0; only
used under hypotheses that the timestamp is `some`. -/
def tsNum (r : DatabaseAgentProgress) : Nat :=
  r.updated_at.getD 0

/-- The accumulator of the `reduce` at lines 83-88: a JavaScript object
`Record<string, DatabaseAgentProgress>`, modelled as an association list in
key-insertion order (JavaScript objects preserve string-key insertion
order, which `Object.values` then follows). -/
abbrev Acc : Type := List (String × DatabaseAgentProgress)

/-- One step of the reduce:
`if (!acc[item.agent_name] || new Date(item.updated_at || '') > new Date(acc[item.agent_name].updated_at || '')) acc[item.agent_name] = item`.
Assignment to an absent key appends it; assignment to a present key
replaces the value in place, preserving key order. -/
def latestStep (acc : Acc) (item : DatabaseAgentProgress) : Acc :=
  match List.lookup item.agent_name acc with
  | none => acc ++ [(item.agent_name, item)]
  | some cur =>
    if jsDateGt item.updated_at cur.updated_at then
      acc.map (fun p => if p.1 = item.agent_name then (item.agent_name, item) else p)
    else acc

/-- `latestProgressByAgent`: the fold of `latestStep` over the fetched rows
with initial accumulator the empty object (line 83-88 of the hook). -/
def latestProgressByAgent (data : List DatabaseAgentProgress) : Acc :=
  data.foldl latestStep []

/-- Frontend-facing shape, after `AgentProgress` in `@/types/research` as
used by the hook: `currentTask` is optional (`undefined` is `none`). -/
structure AgentProgress where
  name : String
  status : String
  progress : Int
  currentTask : Option String
deriving DecidableEq, Repr

/-- JavaScript `x || d` for a nullable string: `null` and the empty string
are falsy. -/
def jsOrStr (x : Option String) (d : String) : String :=
  match x with
  | none => d
  | some s => if s = "" then d else s

/-- JavaScript `x || 0` for a nullable number (falsy values `null` and `0`
both yield `0`, which coincides with `getD 0`). -/
def jsOrZero (x : Option Int) : Int :=
  match x with
  | none => 0
  | some v => if v = 0 then 0 else v

/-- JavaScript `x || undefined` for a nullable string: `null` and the empty
string both collapse to `undefined`. -/
def jsOrUndefined (x : Option String) : Option String :=
  match x with
  | none => none
  | some s => if s = "" then none else some s

/-- The per-record mapping inside `mappedProgress` (lines 91-96). -/
def mapRecord (item : DatabaseAgentProgress) : AgentProgress :=
  { name := item.agent_name
    status := jsOrStr item.status "waiting"
    progress := jsOrZero item.progress
    currentTask := jsOrUndefined item.current_task }

/-- `mappedProgress`: `Object.values(latestProgressByAgent).map(...)`,
values taken in key-insertion order. -/
def mappedProgress (data : List DatabaseAgentProgress) : List AgentProgress :=
  (latestProgressByAgent data).map (fun p => mapRecord p.2)

/-! Helper lemmas: the association-list accumulator, observed through
`List.lookup`, behaves key-wise; the fold over records then collapses to a
scalar fold per agent name. -/

theorem lookup_cons_ite (k n : String) (v : DatabaseAgentProgress) (t : Acc) :
    List.lookup n ((k, v) :: t) = if n = k then some v else List.lookup n t := by
  by_cases h : n = k
  · simp [List.lookup_cons, beq_iff_eq, h]
  · simp [List.lookup_cons, beq_false_of_ne h, h]

theorem lookup_map_set (k : String) (v : DatabaseAgentProgress) :
    ∀ (acc : Acc) (n : String),
    List.lookup n (acc.map (fun p => if p.1 = k then (k, v) else p)) =
      if n = k then (List.lookup k acc).map (fun _ => v) else List.lookup n acc := by
  intro acc
  induction acc with
  | nil => intro n; by_cases h : n = k <;> simp [h]
  | cons a t ih =>
    intro n
    obtain ⟨ak, av⟩ := a
    by_cases hak : ak = k
    · subst hak
      by_cases hn : n = ak <;>
        simp [lookup_cons_ite, hn, ih]
    · by_cases hn : n = ak
      · subst hn
        have hk : ¬ k = n := fun h => hak h.symm
        simp [lookup_cons_ite, hak, hk, ih]
      · have hk : ¬ k = ak := fun h => hak h.symm
        simp [lookup_cons_ite, hak, hk, hn, ih]

theorem lookup_append_single (m : String) (v : DatabaseAgentProgress) :
    ∀ (acc : Acc) (n : String),
    List.lookup n (acc ++ [(m, v)]) =
      match List.lookup n acc with
      | some w => some w
      | none => if n = m then some v else none := by
  intro acc
  induction acc with
  | nil => intro n; simp [lookup_cons_ite]
  | cons a t ih =>
    intro n
    obtain ⟨ak, av⟩ := a
    by_cases hn : n = ak <;>
      simp [List.cons_append, lookup_cons_ite, hn, ih]

/-- Scalar mirror of `latestStep` restricted to one agent name: how the
entry for name `n` evolves as one record is folded in. -/
def winnerStep (n : String) (cur : Option DatabaseAgentProgress)
    (x : DatabaseAgentProgress) : Option DatabaseAgentProgress :=
  if x.agent_name = n then
    some (match cur with
      | none => x
      | some c => if jsDateGt x.updated_at c.updated_at then x else c)
  else cur

theorem winnerStep_none {n : String} {x : DatabaseAgentProgress}
    (hx : x.agent_name = n) : winnerStep n none x = some x := by
  simp [winnerStep, hx]

theorem winnerStep_some_gt {n : String} {x c : DatabaseAgentProgress}
    (hx : x.agent_name = n) (hgt : jsDateGt x.updated_at c.updated_at = true) :
    winnerStep n (some c) x = some x := by
  simp [winnerStep, hx, hgt]

theorem winnerStep_some_le {n : String} {x c : DatabaseAgentProgress}
    (hx : x.agent_name = n) (hgt : ¬ jsDateGt x.updated_at c.updated_at = true) :
    winnerStep n (some c) x = some c := by
  simp [winnerStep, hx, hgt]

theorem winnerStep_other {n : String} {x : DatabaseAgentProgress}
    {cur : Option DatabaseAgentProgress} (hx : ¬ x.agent_name = n) :
    winnerStep n cur x = cur := by
  simp [winnerStep, hx]

theorem lookup_latestStep (acc : Acc) (item : DatabaseAgentProgress) (n : String) :
    List.lookup n (latestStep acc item) = winnerStep n (List.lookup n acc) item := by
  unfold latestStep winnerStep
  cases hcur : List.lookup item.agent_name acc with
  | none =>
    by_cases hn : n = item.agent_name
    · subst hn
      simp [lookup_append_single, hcur]
    · rw [lookup_append_single]
      have hn' : ¬ item.agent_name = n := fun h => hn h.symm
      cases hx : List.lookup n acc <;> simp [hx, hn, hn']
  | some cur =>
    by_cases hgt : jsDateGt item.updated_at cur.updated_at
    · simp only [hgt, if_true]
      rw [lookup_map_set]
      by_cases hn : n = item.agent_name
      · subst hn; simp [hcur, hgt]
      · have hn' : ¬ item.agent_name = n := fun h => hn h.symm
        simp [hn, hn']
    · simp only [hgt, if_false]
      by_cases hn : n = item.agent_name
      · subst hn; simp [hcur, hgt]
      · have hn' : ¬ item.agent_name = n := fun h => hn h.symm
        simp [hn']

theorem lookup_foldl_latestStep (n : String) :
    ∀ (l : List DatabaseAgentProgress) (acc : Acc),
    List.lookup n (List.foldl latestStep acc l) =
      List.foldl (winnerStep n) (List.lookup n acc) l := by
  intro l
  induction l with
  | nil => intro acc; rfl
  | cons x xs ih =>
    intro acc
    rw [List.foldl_cons, List.foldl_cons, ih, lookup_latestStep]

theorem jsDateGt_iff {a b : Option Nat} (ha : a.isSome = true) (hb : b.isSome = true) :
    jsDateGt a b = true ↔ b.getD 0 < a.getD 0 := by
  obtain ⟨x, rfl⟩ := Option.isSome_iff_exists.mp ha
  obtain ⟨y, rfl⟩ := Option.isSome_iff_exists.mp hb
  simp [jsDateGt]

theorem winnerFold_eq_none (n : String) :
    ∀ (l : List DatabaseAgentProgress) (cur : Option DatabaseAgentProgress),
    List.foldl (winnerStep n) cur l = none →
    cur = none ∧ ∀ x ∈ l, x.agent_name ≠ n := by
  intro l
  induction l with
  | nil => intro cur h; exact ⟨h, by simp⟩
  | cons x xs ih =>
    intro cur h
    rw [List.foldl_cons] at h
    obtain ⟨h1, h2⟩ := ih _ h
    unfold winnerStep at h1
    by_cases hx : x.agent_name = n
    · rw [if_pos hx] at h1; cases h1
    · rw [if_neg hx] at h1
      refine ⟨h1, ?_⟩
      intro y hy
      rcases List.mem_cons.mp hy with h | h
      · subst h; exact hx
      · exact h2 y h

theorem winnerFold_mem (n : String) :
    ∀ (l : List DatabaseAgentProgress) (cur : Option DatabaseAgentProgress)
      (c : DatabaseAgentProgress),
    List.foldl (winnerStep n) cur l = some c →
    cur = some c ∨ (c ∈ l ∧ c.agent_name = n) := by
  intro l
  induction l with
  | nil => intro cur c h; exact Or.inl h
  | cons x xs ih =>
    intro cur c h
    rw [List.foldl_cons] at h
    rcases ih _ _ h with h1 | h1
    · by_cases hx : x.agent_name = n
      · cases cur with
        | none =>
          rw [winnerStep_none hx] at h1
          have hxc : x = c := by cases h1; rfl
          exact Or.inr ⟨by rw [← hxc]; exact List.mem_cons_self x xs,
            by rw [← hxc]; exact hx⟩
        | some c0 =>
          by_cases hgt : jsDateGt x.updated_at c0.updated_at
          · rw [winnerStep_some_gt hx hgt] at h1
            have hxc : x = c := by cases h1; rfl
            exact Or.inr ⟨by rw [← hxc]; exact List.mem_cons_self x xs,
              by rw [← hxc]; exact hx⟩
          · rw [winnerStep_some_le hx hgt] at h1
            exact Or.inl h1
      · rw [winnerStep_other hx] at h1; exact Or.inl h1
    · exact Or.inr ⟨List.mem_cons_of_mem _ h1.1, h1.2⟩

theorem winnerFold_dom (n : String) :
    ∀ (l : List DatabaseAgentProgress) (cur : Option DatabaseAgentProgress)
      (c : DatabaseAgentProgress),
    (∀ x ∈ l, x.agent_name = n → x.updated_at.isSome = true) →
    (∀ c₀, cur = some c₀ → c₀.updated_at.isSome = true) →
    List.foldl (winnerStep n) cur l = some c →
    (∀ c₀, cur = some c₀ → tsNum c₀ ≤ tsNum c) ∧
    (∀ x ∈ l, x.agent_name = n → tsNum x ≤ tsNum c) := by
  intro l
  induction l with
  | nil =>
    intro cur c _ _ h
    refine ⟨?_, by simp⟩
    intro c₀ hc₀
    rw [hc₀] at h
    cases h
    exact le_refl _
  | cons x xs ih =>
    intro cur c hl hcur h
    rw [List.foldl_cons] at h
    have hxmem : x ∈ x :: xs := List.mem_cons_self x xs
    have hl' : ∀ y ∈ xs, y.agent_name = n → y.updated_at.isSome = true :=
      fun y hy => hl y (List.mem_cons_of_mem _ hy)
    have hcur' : ∀ c₀, winnerStep n cur x = some c₀ → c₀.updated_at.isSome = true := by
      intro c₀ hc₀
      by_cases hx : x.agent_name = n
      · cases cur with
        | none =>
          rw [winnerStep_none hx] at hc₀
          cases hc₀; exact hl x hxmem hx
        | some d =>
          by_cases hgt : jsDateGt x.updated_at d.updated_at
          · rw [winnerStep_some_gt hx hgt] at hc₀
            cases hc₀; exact hl x hxmem hx
          · rw [winnerStep_some_le hx hgt] at hc₀
            cases hc₀; exact hcur _ rfl
      · rw [winnerStep_other hx] at hc₀; exact hcur _ hc₀
    obtain ⟨ihcur, ihxs⟩ := ih (winnerStep n cur x) c hl' hcur' h
    constructor
    · intro c₀ hc₀
      by_cases hx : x.agent_name = n
      · by_cases hgt : jsDateGt x.updated_at c₀.updated_at
        · have hstep : winnerStep n cur x = some x := by
            rw [hc₀]; exact winnerStep_some_gt hx hgt
          have hx_le : tsNum x ≤ tsNum c := ihcur x hstep
          have hc₀x : tsNum c₀ < tsNum x :=
            (jsDateGt_iff (hl x hxmem hx) (hcur c₀ hc₀)).mp hgt
          exact le_of_lt (lt_of_lt_of_le hc₀x hx_le)
        · have hstep : winnerStep n cur x = some c₀ := by
            rw [hc₀]; exact winnerStep_some_le hx hgt
          exact ihcur c₀ hstep
      · have hstep : winnerStep n cur x = some c₀ := by
          rw [hc₀]; exact winnerStep_other hx
        exact ihcur c₀ hstep
    · intro y hy hyn
      rcases List.mem_cons.mp hy with rfl | hmem
      · cases hc : cur with
        | none =>
          have hstep : winnerStep n cur y = some y := by
            rw [hc]; exact winnerStep_none hyn
          exact ihcur y hstep
        | some c₀ =>
          by_cases hgt : jsDateGt y.updated_at c₀.updated_at
          · have hstep : winnerStep n cur y = some y := by
              rw [hc]; exact winnerStep_some_gt hyn hgt
            exact ihcur y hstep
          · have hstep : winnerStep n cur y = some c₀ := by
              rw [hc]; exact winnerStep_some_le hyn hgt
            have h1 : tsNum c₀ ≤ tsNum c := ihcur c₀ hstep
            have h2 : ¬ tsNum c₀ < tsNum y := by
              intro hlt
              exact hgt ((jsDateGt_iff (hl y hy hyn) (hcur c₀ hc)).mpr hlt)
            exact le_trans (le_of_not_lt h2) h1
      · exact ihxs y hmem hyn

/-- Core aggregator correctness: when every record carrying agent name `n`
has a valid timestamp and `r` is the strictly latest such record, the fold
of `latestStep` resolves name `n` to `r`, for every input order. -/
theorem fold_argmax (n : String) (l : List DatabaseAgentProgress)
    (r : DatabaseAgentProgress)
    (hsome : ∀ x ∈ l, x.agent_name = n → x.updated_at.isSome = true)
    (hmem : r ∈ l) (hname : r.agent_name = n)
    (hmax : ∀ x ∈ l, x.agent_name = n → x ≠ r → tsNum x < tsNum r) :
    List.lookup n (latestProgressByAgent l) = some r := by
  have hfold : List.lookup n (latestProgressByAgent l) =
      List.foldl (winnerStep n) none l := by
    unfold latestProgressByAgent
    rw [lookup_foldl_latestStep]
    rfl
  rw [hfold]
  cases hres : List.foldl (winnerStep n) none l with
  | none =>
    obtain ⟨_, hno⟩ := winnerFold_eq_none n l none hres
    exact absurd hname (hno r hmem)
  | some c =>
    rcases winnerFold_mem n l none c hres with h | ⟨hcmem, hcname⟩
    · cases h
    · obtain ⟨_, hdom⟩ := winnerFold_dom n l none c hsome (by intro c₀ h; cases h) hres
      by_cases hcr : c = r
      · rw [hcr]
      · have h1 : tsNum c < tsNum r := hmax c hcmem hcname hcr
        have h2 : tsNum r ≤ tsNum c := hdom r hmem hname
        exact absurd h1 (not_lt_of_le h2)

/-! Concrete records used by witnesses and counterexamples. -/

/-- An older record for agent "Browser Agent" (timestamp 100). -/
def wBrowserOld : DatabaseAgentProgress :=
  ⟨"a1", some "q1", "Browser Agent", some "active", some 40, none, some 0, some 100⟩

/-- A newer record for agent "Browser Agent" (timestamp 200). -/
def wBrowserNew : DatabaseAgentProgress :=
  ⟨"a2", some "q1", "Browser Agent", some "completed", some 100, none, some 0, some 200⟩

/-- Two distinct records for agent "Writer Agent" sharing the timestamp 100. -/
def wTieA : DatabaseAgentProgress :=
  ⟨"t1", some "q1", "Writer Agent", some "active", some 10, none, none, some 100⟩

/-- Second record of the tie pair (same timestamp, different id). -/
def wTieB : DatabaseAgentProgress :=
  ⟨"t2", some "q1", "Writer Agent", some "active", some 90, none, none, some 100⟩

/-- A record for agent "Reviewer Agent" with a null `updated_at`. -/
def wNullTs : DatabaseAgentProgress :=
  ⟨"n1", some "q1", "Reviewer Agent", some "waiting", some 0, none, none, none⟩

/-- A record for agent "Reviewer Agent" with a real timestamp 300. -/
def wRealTs : DatabaseAgentProgress :=
  ⟨"n2", some "q1", "Reviewer Agent", some "active", some 50, none, none, some 300⟩

/-- C1: for a list of records in which every `updated_at` is non-null and,
for `r`'s agent name, the maximum `updated_at` is attained only by `r`, the
fold in `fetchProgress` maps that agent name to `r` — the record with the
maximum `updated_at` — whatever the input order. -/
theorem C1_aggregator_maps_to_max (l : List DatabaseAgentProgress)
    (r : DatabaseAgentProgress)
    (hsome : ∀ x ∈ l, x.updated_at.isSome = true)
    (hmem : r ∈ l)
    (hmax : ∀ x ∈ l, x.agent_name = r.agent_name → x ≠ r → tsNum x < tsNum r) :
    List.lookup r.agent_name (latestProgressByAgent l) = some r :=
  fold_argmax r.agent_name l r (fun x hx _ => hsome x hx) hmem rfl hmax

/-- Witness for C1 on the two-record "Browser Agent" history. -/
theorem C1_aggregator_maps_to_max_witness :
    (∀ x ∈ [wBrowserOld, wBrowserNew], x.updated_at.isSome = true) ∧
    wBrowserNew ∈ [wBrowserOld, wBrowserNew] ∧
    (∀ x ∈ [wBrowserOld, wBrowserNew], x.agent_name = wBrowserNew.agent_name →
      x ≠ wBrowserNew → tsNum x < tsNum wBrowserNew) ∧
    List.lookup wBrowserNew.agent_name (latestProgressByAgent [wBrowserOld, wBrowserNew]) =
      some wBrowserNew :=
  ⟨by decide, by decide, by decide,
    C1_aggregator_maps_to_max [wBrowserOld, wBrowserNew] wBrowserNew
      (by decide) (by decide) (by decide)⟩

/-- C2 fails as stated: on a tie (two records for "Writer Agent" with the
identical timestamp 100) the fold keeps whichever record comes first, so
the two orders of the same record set produce different winners. -/
theorem C2_counterexample :
    [wTieA, wTieB].Perm [wTieB, wTieA] ∧
    List.lookup "Writer Agent" (latestProgressByAgent [wTieA, wTieB]) = some wTieA ∧
    List.lookup "Writer Agent" (latestProgressByAgent [wTieB, wTieA]) = some wTieB ∧
    wTieA ≠ wTieB :=
  ⟨by decide, by decide, by decide, by decide⟩

/-- C2 amended: the aggregation fold is permutation-invariant per agent
name provided every `updated_at` is non-null and the per-name maximum is
attained by exactly one record; on ties the first record in input order
wins, so permutations may differ. -/
theorem C2_perm_invariant_of_unique_max (l l' : List DatabaseAgentProgress)
    (hperm : l.Perm l') (r : DatabaseAgentProgress)
    (hsome : ∀ x ∈ l, x.updated_at.isSome = true)
    (hmem : r ∈ l)
    (hmax : ∀ x ∈ l, x.agent_name = r.agent_name → x ≠ r → tsNum x < tsNum r) :
    List.lookup r.agent_name (latestProgressByAgent l) =
      List.lookup r.agent_name (latestProgressByAgent l') := by
  have h1 := fold_argmax r.agent_name l r (fun x hx _ => hsome x hx) hmem rfl hmax
  have h2 := fold_argmax r.agent_name l' r
    (fun x hx _ => hsome x (hperm.mem_iff.mpr hx))
    (hperm.mem_iff.mp hmem) rfl
    (fun x hx hn hne => hmax x (hperm.mem_iff.mpr hx) hn hne)
  rw [h1, h2]

/-- Witness for the amended C2 on the two orders of the "Browser Agent"
history. -/
theorem C2_perm_invariant_of_unique_max_witness :
    [wBrowserOld, wBrowserNew].Perm [wBrowserNew, wBrowserOld] ∧
    (∀ x ∈ [wBrowserOld, wBrowserNew], x.updated_at.isSome = true) ∧
    wBrowserNew ∈ [wBrowserOld, wBrowserNew] ∧
    (∀ x ∈ [wBrowserOld, wBrowserNew], x.agent_name = wBrowserNew.agent_name →
      x ≠ wBrowserNew → tsNum x < tsNum wBrowserNew) ∧
    List.lookup wBrowserNew.agent_name (latestProgressByAgent [wBrowserOld, wBrowserNew]) =
      List.lookup wBrowserNew.agent_name (latestProgressByAgent [wBrowserNew, wBrowserOld]) :=
  ⟨by decide, by decide, by decide, by decide,
    C2_perm_invariant_of_unique_max [wBrowserOld, wBrowserNew] [wBrowserNew, wBrowserOld]
      (by decide) wBrowserNew (by decide) (by decide) (by decide)⟩

/-- C3 fails as stated: `new Date(null || '')` is an Invalid Date, not
epoch-0, so with the null-timestamp record first the real-timestamp record
never supersedes it — the fold keeps the null-timestamp record. -/
theorem C3_counterexample :
    List.lookup "Reviewer Agent" (latestProgressByAgent [wNullTs, wRealTs]) = some wNullTs ∧
    wNullTs ≠ wRealTs :=
  ⟨by decide, by decide⟩

/-- C3 amended: a null `updated_at` yields an invalid date whose
comparisons are all false, so between a real-timestamped record and a
null-timestamped record for the same agent the first record of the input
wins; the real-timestamped record wins only when it precedes the null
one. -/
theorem C3_null_timestamp_first_wins (r s : DatabaseAgentProgress) (t : Nat)
    (hn : s.agent_name = r.agent_name)
    (hr : r.updated_at = some t) (hs : s.updated_at = none) :
    List.lookup r.agent_name (latestProgressByAgent [r, s]) = some r ∧
    List.lookup r.agent_name (latestProgressByAgent [s, r]) = some s := by
  constructor
  · have e1 : latestStep [] r = [(r.agent_name, r)] := by
      simp [latestStep]
    have e2 : latestStep [(r.agent_name, r)] s = [(r.agent_name, r)] := by
      unfold latestStep
      rw [hn, lookup_cons_ite, if_pos rfl]
      simp [jsDateGt, hs]
    show List.lookup r.agent_name (latestStep (latestStep [] r) s) = some r
    rw [e1, e2, lookup_cons_ite, if_pos rfl]
  · have e1 : latestStep [] s = [(s.agent_name, s)] := by
      simp [latestStep]
    have e2 : latestStep [(s.agent_name, s)] r = [(s.agent_name, s)] := by
      unfold latestStep
      rw [hn, lookup_cons_ite, if_pos rfl]
      simp [jsDateGt, hr, hs]
    show List.lookup r.agent_name (latestStep (latestStep [] s) r) = some s
    rw [e1, e2, hn, lookup_cons_ite, if_pos rfl]

/-- Witness for the amended C3 on the "Reviewer Agent" pair. -/
theorem C3_null_timestamp_first_wins_witness :
    wNullTs.agent_name = wRealTs.agent_name ∧
    wRealTs.updated_at = some 300 ∧
    wNullTs.updated_at = none ∧
    (List.lookup wRealTs.agent_name (latestProgressByAgent [wRealTs, wNullTs]) = some wRealTs ∧
     List.lookup wRealTs.agent_name (latestProgressByAgent [wNullTs, wRealTs]) = some wNullTs) :=
  ⟨rfl, rfl, rfl,
    C3_null_timestamp_first_wins wRealTs wNullTs 300 rfl rfl rfl⟩

/-! Runtime model of the reconciliation loop of `useRealtimeProgress`:
the hook's mutable state and the asynchronous events that act on it, one
logical thread, as in the source. -/

/-- Result of awaiting the store read inside `fetchProgress`: rows, a
Supabase error object (line 75), or a thrown exception (line 100). -/
inductive FetchOutcome
  | ok (data : List DatabaseAgentProgress)
  | storeError
  | exception
deriving DecidableEq, Repr

/-- Mutable state of one subscription: the React state `agentProgress`,
the ref `lastFetchRef`, the fire times of pending 100ms push timers, and
whether the channel and the 3s polling interval are still installed. -/
structure LoopState where
  agentProgress : List AgentProgress
  lastFetch : Nat
  pendingTimers : List Nat
  active : Bool
deriving DecidableEq, Repr

/-- Guard at lines 60-65: a fetch attempt at `now` issues a store read
only when at least 500ms have passed since the last accepted attempt
STARTED — `lastFetchRef` is written before the read, not at completion. -/
def fetchAccepted (now : Nat) (st : LoopState) : Bool :=
  !(now - st.lastFetch < 500)

/-- Asynchronous events acting on one subscription. -/
inductive Event
  | fetchStart (now : Nat)
  | fetchResolve (now : Nat) (outcome : FetchOutcome)
  | pushNotify (now : Nat)
  | teardown
deriving DecidableEq, Repr

/-- Small-step semantics of the hook, one event at a time.
`fetchStart` is the synchronous prologue of `fetchProgress` (lines 59-65):
the guard either drops the attempt or records `lastFetchRef := now` and
issues the read.  `fetchResolve` is the continuation after `await`
(lines 75-99): an error or a thrown exception merely logs and returns,
while data unconditionally replaces the visible state via
`setAgentProgress` — the code checks neither a request generation nor
whether the subscription is still installed, and the completion time
(carried here for stating claims) is recorded nowhere.  `pushNotify` is
the `postgres_changes` handler (lines 124-130 and 142-147): every
notification schedules its own `setTimeout(fetchProgress, 100)`.
`teardown` is the effect cleanup (lines 162-170): it removes the channel
and clears the polling interval, but cancels neither pending debounce
timers nor in-flight fetches. -/
def step (st : LoopState) : Event → LoopState
  | .fetchStart now =>
    if now - st.lastFetch < 500 then st
    else { st with lastFetch := now }
  | .fetchResolve _ (.ok data) => { st with agentProgress := mappedProgress data }
  | .fetchResolve _ .storeError => st
  | .fetchResolve _ .exception => st
  | .pushNotify now => { st with pendingTimers := st.pendingTimers ++ [now + 100] }
  | .teardown => { st with active := false }

/-- Folding a whole event trace from a starting state. -/
def run (st : LoopState) (es : List Event) : LoopState :=
  es.foldl step st

/-- Number of timer firings that pass the 500ms guard when pending fetch
timers fire in order: the guard of lines 60-65 threaded through the
sequence of fire times (first component: `lastFetchRef`, second: how many
store reads happened). -/
def countAccepted (lastFetch : Nat) (fires : List Nat) : Nat :=
  (fires.foldl (fun (p : Nat × Nat) f => if f - p.1 < 500 then p else (f, p.2 + 1))
    (lastFetch, 0)).2

/-- Observable operations of the body of the `useEffect` (lines 40-171). -/
inductive EffectAction
  | setEmptyState
  | removePriorChannel
  | inlineFetchAttempt
  | openChannel
  | startPollTimer
deriving DecidableEq, Repr

/-- Program order of the effect body: a null `queryId` only clears the
visible state (lines 42-45); otherwise the effect removes a prior channel
if one exists (lines 49-52), calls `fetchProgress()` inline — line 107, no
`setTimeout`, though the call still runs the 500ms guard — then creates
and subscribes the channel (lines 110-153), then starts the 3s polling
interval (line 157). -/
def effectBody (queryId : Option String) (hasPriorChannel : Bool) : List EffectAction :=
  match queryId with
  | none => [.setEmptyState]
  | some _ =>
    (if hasPriorChannel then [.removePriorChannel] else []) ++
    [.inlineFetchAttempt, .openChannel, .startPollTimer]

/-- State of a subscription at mount: empty visible state, `lastFetchRef`
0, no pending timers, channel and interval installed. -/
def st0 : LoopState := ⟨[], 0, [], true⟩

theorem run_pushNotify_timers (ts : List Nat) :
    ∀ (st : LoopState),
    (run st (ts.map Event.pushNotify)).pendingTimers =
      st.pendingTimers ++ ts.map (· + 100) := by
  induction ts with
  | nil => intro st; simp [run]
  | cons t ts ih =>
    intro st
    show (run (step st (.pushNotify t)) (ts.map Event.pushNotify)).pendingTimers = _
    rw [ih]
    simp [step]

theorem countFold_skip (fires : List Nat) :
    ∀ (cur cnt : Nat), (∀ f ∈ fires, f - cur < 500) →
    fires.foldl (fun (p : Nat × Nat) f => if f - p.1 < 500 then p else (f, p.2 + 1))
      (cur, cnt) = (cur, cnt) := by
  induction fires with
  | nil => intro cur cnt _; rfl
  | cons f fs ih =>
    intro cur cnt hall
    rw [List.foldl_cons, if_pos (hall f (List.mem_cons_self f fs))]
    exact ih cur cnt (fun g hg => hall g (List.mem_cons_of_mem _ hg))

/-- C4: evaluating the code at the failing interleaving.  Fetch A is
accepted at 1000, fetch B at 1600 (both pass the guard and read the
store); B resolves first with the fresh rows, then A resolves with the
stale rows.  Because `fetchProgress` applies `setAgentProgress` with no
request-generation check, the visible state ends as A's (stale) result,
not B's — the claimed 'stale data never overwrites fresh data' invariant
fails on the code. -/
theorem C4_stale_fetch_overwrites :
    fetchAccepted 1000 st0 = true ∧
    fetchAccepted 1600 (run st0 [.fetchStart 1000]) = true ∧
    (run st0 [.fetchStart 1000, .fetchStart 1600,
      .fetchResolve 1700 (.ok [wBrowserNew]),
      .fetchResolve 1800 (.ok [wBrowserOld])]).agentProgress =
      mappedProgress [wBrowserOld] ∧
    mappedProgress [wBrowserOld] ≠ mappedProgress [wBrowserNew] :=
  ⟨by decide, by decide, by decide, by decide⟩

/-- C5: evaluating the code at the failing interleaving.  A fetch is
accepted at 1000, the subscription is torn down (channel removed, interval
cleared), and the in-flight fetch then resolves: `setAgentProgress` still
runs and mutates the visible state after teardown — the cleanup cancels
neither in-flight fetches nor pending debounce timers, and the resolve
path has no liveness check. -/
theorem C5_mutation_after_teardown :
    (run st0 [.fetchStart 1000, .teardown]).active = false ∧
    (run st0 [.fetchStart 1000, .teardown,
      .fetchResolve 1800 (.ok [wBrowserNew])]).agentProgress =
      mappedProgress [wBrowserNew] ∧
    mappedProgress [wBrowserNew] ≠ st0.agentProgress :=
  ⟨by decide, by decide, by decide⟩

/-- C6 fails as stated: the last accepted fetch starts at 1000 and
completes at 1600; a request at 1700 arrives only 100ms after that
completion — less than the 500ms the claim requires — yet it is not
dropped: the guard compares against the start time 1000, so the request
issues a store read. -/
theorem C6_counterexample :
    1700 - 1600 < 500 ∧
    fetchAccepted 1700
      (run st0 [.fetchStart 1000, .fetchResolve 1600 (.ok [wBrowserOld])]) = true :=
  ⟨by decide, by decide⟩

/-- C6 amended: the 500ms minimum inter-fetch interval is measured from
the START of the last accepted fetch (`lastFetchRef` is written before the
store read), independently of when — and how — that fetch completes; a
request inside the window is dropped, not queued: no store read and no
state change. -/
theorem C6_min_interval_from_start (st : LoopState) (s c n : Nat)
    (d : FetchOutcome) (hs : 500 ≤ s - st.lastFetch) (hn : n - s < 500) :
    fetchAccepted n (run st [.fetchStart s, .fetchResolve c d]) = false ∧
    step (run st [.fetchStart s, .fetchResolve c d]) (.fetchStart n) =
      run st [.fetchStart s, .fetchResolve c d] := by
  have hacc : ¬ (s - st.lastFetch < 500) := not_lt_of_le hs
  have h1 : (run st [.fetchStart s, .fetchResolve c d]).lastFetch = s := by
    cases d <;> simp [run, step, hacc]
  constructor
  · simp [fetchAccepted, h1, hn]
  · show (if n - (run st [.fetchStart s, .fetchResolve c d]).lastFetch < 500
        then _ else _) = _
    rw [h1, if_pos hn]

/-- Witness for the amended C6: fetch accepted at 1000, resolved at 1600;
the request at 1200 (inside the window measured from the start) is dropped
and changes nothing. -/
theorem C6_min_interval_from_start_witness :
    500 ≤ 1000 - st0.lastFetch ∧ 1200 - 1000 < 500 ∧
    (fetchAccepted 1200
        (run st0 [.fetchStart 1000, .fetchResolve 1600 (.ok [wBrowserNew])]) = false ∧
      step (run st0 [.fetchStart 1000, .fetchResolve 1600 (.ok [wBrowserNew])])
          (.fetchStart 1200) =
        run st0 [.fetchStart 1000, .fetchResolve 1600 (.ok [wBrowserNew])]) :=
  ⟨by decide, by decide,
    C6_min_interval_from_start st0 1000 1600 1200 (.ok [wBrowserNew])
      (by decide) (by decide)⟩

/-- Fire times of a concrete burst of 10 push notifications within 50ms. -/
def burst10 : List Nat := [1000, 1005, 1010, 1015, 1020, 1025, 1030, 1035, 1040, 1050]

/-- C7 fails as stated: a burst of 10 push notifications within 50ms does
not coalesce into exactly 1 scheduled fetch — each notification schedules
its own 100ms `setTimeout(fetchProgress, 100)`, so 10 fetch timers are
pending afterwards. -/
theorem C7_counterexample :
    (run st0 (burst10.map Event.pushNotify)).pendingTimers.length = 10 ∧
    (run st0 (burst10.map Event.pushNotify)).pendingTimers.length ≠ 1 :=
  ⟨by decide, by decide⟩

/-- C7 amended: every push-triggered fetch is scheduled with a fixed 100ms
delay rather than executed inline, but a burst of 10 notifications within
50ms schedules 10 timers, not 1; the coalescing the claim describes
happens at the 500ms guard instead: when the 10 timers fire in order,
exactly one of the resulting fetch attempts passes the guard and reads the
store, provided the first firing comes at least 500ms after the last
accepted fetch. -/
theorem C7_burst_one_store_read (st : LoopState) (t₀ : Nat) (rest : List Nat)
    (hlen : rest.length = 9)
    (hspan : ∀ t ∈ rest, t ≤ t₀ + 50)
    (hgap : 500 ≤ t₀ + 100 - st.lastFetch) :
    (run st ((t₀ :: rest).map Event.pushNotify)).pendingTimers =
      st.pendingTimers ++ (t₀ :: rest).map (· + 100) ∧
    ((t₀ :: rest).map (· + 100)).length = 10 ∧
    countAccepted st.lastFetch ((t₀ :: rest).map (· + 100)) = 1 := by
  refine ⟨run_pushNotify_timers _ _, by simp [hlen], ?_⟩
  unfold countAccepted
  rw [List.map_cons, List.foldl_cons, if_neg (by omega)]
  rw [countFold_skip (rest.map (· + 100)) (t₀ + 100) 1 ?_]
  · intro f hf
    obtain ⟨t, ht, rfl⟩ := List.mem_map.mp hf
    have := hspan t ht
    omega

/-- Witness for the amended C7 on the concrete burst `burst10`. -/
theorem C7_burst_one_store_read_witness :
    List.length [1005, 1010, 1015, 1020, 1025, 1030, 1035, 1040, 1050] = 9 ∧
    (∀ t ∈ [1005, 1010, 1015, 1020, 1025, 1030, 1035, 1040, 1050], t ≤ 1000 + 50) ∧
    500 ≤ 1000 + 100 - st0.lastFetch ∧
    ((run st0 (((1000 : Nat) :: [1005, 1010, 1015, 1020, 1025, 1030, 1035, 1040, 1050]).map
        Event.pushNotify)).pendingTimers =
      st0.pendingTimers ++
        (((1000 : Nat) :: [1005, 1010, 1015, 1020, 1025, 1030, 1035, 1040, 1050]).map (· + 100)) ∧
      ((((1000 : Nat) :: [1005, 1010, 1015, 1020, 1025, 1030, 1035, 1040, 1050]).map (· + 100)).length = 10 ∧
      countAccepted st0.lastFetch
        (((1000 : Nat) :: [1005, 1010, 1015, 1020, 1025, 1030, 1035, 1040, 1050]).map (· + 100)) = 1)) :=
  ⟨by decide, by decide, by decide,
    C7_burst_one_store_read st0 1000 [1005, 1010, 1015, 1020, 1025, 1030, 1035, 1040, 1050]
      (by decide) (by decide) (by decide)⟩

/-- C8: a failed fetch — a store error result or a thrown exception, both
of which `fetchProgress` catches, logs and returns from — leaves the loop
state, in particular the previously aggregated `agentProgress`, entirely
unchanged (never cleared to empty); the resolve step being a total
function of the outcome, no store-access error escapes the loop. -/
theorem C8_failed_fetch_keeps_state (st : LoopState) (now : Nat) :
    step st (.fetchResolve now .storeError) = st ∧
    step st (.fetchResolve now .exception) = st :=
  ⟨rfl, rfl⟩

/-- C9 fails as stated: the seed fetch run on entering the subscribed
state is subject to the 500ms guard.  Concretely, a fetch for the previous
query was accepted at 1000 and resolved at 1100; the query id changes and
the effect re-runs at 1200; its inline seed fetch attempt is dropped — no
store read, no state change — so the visible state still holds the
previous query's rows: the transition did not seed the state. -/
theorem C9_counterexample :
    effectBody (some "q2") true =
      [.removePriorChannel, .inlineFetchAttempt, .openChannel, .startPollTimer] ∧
    fetchAccepted 1200
      (run st0 [.fetchStart 1000, .fetchResolve 1100 (.ok [wBrowserOld])]) = false ∧
    step (run st0 [.fetchStart 1000, .fetchResolve 1100 (.ok [wBrowserOld])])
        (.fetchStart 1200) =
      run st0 [.fetchStart 1000, .fetchResolve 1100 (.ok [wBrowserOld])] ∧
    (run st0 [.fetchStart 1000, .fetchResolve 1100 (.ok [wBrowserOld])]).agentProgress =
      mappedProgress [wBrowserOld] :=
  ⟨by decide, by decide, by decide, by decide⟩

/-- C9 amended: on receiving a non-null query id the effect performs, in
order, one inline (non-debounced) fetch ATTEMPT, then opens the push
channel, then starts the polling timer; the attempt runs the 500ms
minimum-interval guard, and when dropped by it performs no store read and
seeds nothing. -/
theorem C9_subscribe_order (q : String) (b : Bool) :
    effectBody (some q) b =
      (if b then [.removePriorChannel] else []) ++
        [.inlineFetchAttempt, .openChannel, .startPollTimer] ∧
    ∀ (st : LoopState) (now : Nat), now - st.lastFetch < 500 →
      step st (.fetchStart now) = st ∧ fetchAccepted now st = false := by
  refine ⟨rfl, ?_⟩
  intro st now h
  constructor
  · show (if now - st.lastFetch < 500 then st else _) = st
    rw [if_pos h]
  · simp [fetchAccepted, h]

/-- Witness for the amended C9: a re-subscription 200ms after the previous
accepted fetch; the inline attempt is dropped. -/
theorem C9_subscribe_order_witness :
    (effectBody (some "q2") true =
      [.removePriorChannel, .inlineFetchAttempt, .openChannel, .startPollTimer]) ∧
    1200 - (LoopState.mk (mappedProgress [wBrowserOld]) 1000 [] true).lastFetch < 500 ∧
    (step (LoopState.mk (mappedProgress [wBrowserOld]) 1000 [] true) (.fetchStart 1200) =
        LoopState.mk (mappedProgress [wBrowserOld]) 1000 [] true ∧
      fetchAccepted 1200 (LoopState.mk (mappedProgress [wBrowserOld]) 1000 [] true) = false) :=
  ⟨(C9_subscribe_order "q2" true).1, by decide,
    (C9_subscribe_order "q2" true).2
      (LoopState.mk (mappedProgress [wBrowserOld]) 1000 [] true) 1200 (by decide)⟩

/-- C10 fails as stated: the empty string is a non-null unknown status
string, yet `(item.status as ...) || 'waiting'` treats it as falsy, so it
does not pass through unchanged — it is defaulted to "waiting". -/
theorem C10_counterexample :
    (mapRecord ⟨"e1", some "q1", "Editor Agent", some "", some 5, some "", none,
      some 400⟩).status = "waiting" ∧
    ("waiting" : String) ≠ "" :=
  ⟨rfl, by decide⟩

/-- C10 amended: at the public interface a null OR empty status is mapped
to "waiting", a null progress to 0, and a null OR empty `current_task` to
`undefined`; a non-null status string passes through unchanged exactly
when it is non-empty (JavaScript `||` treats the empty string as falsy),
and the published status is consequently never empty. -/
theorem C10_null_field_defaults (i : DatabaseAgentProgress) (s c : String) :
    (mapRecord i).name = i.agent_name ∧
    (mapRecord { i with status := none }).status = "waiting" ∧
    (mapRecord { i with status := some s }).status = (if s = "" then "waiting" else s) ∧
    (mapRecord { i with progress := none }).progress = 0 ∧
    (mapRecord { i with current_task := none }).currentTask = none ∧
    (mapRecord { i with current_task := some c }).currentTask =
      (if c = "" then none else some c) ∧
    (mapRecord i).status ≠ "" := by
  refine ⟨rfl, rfl, rfl, rfl, rfl, rfl, ?_⟩
  show jsOrStr i.status "waiting" ≠ ""
  unfold jsOrStr
  cases i.status with
  | none => decide
  | some s' =>
    by_cases h : s' = "" <;> simp [h]

end RealtimeProgress
